import Mathlib

/-!
Verification development for the `hermes` continuous-deployment agent
(source files: `src/main.rs`, `src/req_handler.rs`, `src/utils.rs`,
`src/config.rs`).  The Rust code is shallowly embedded: pure helpers become
Lean functions over `Nat`-byte lists, external effects (git, the Docker
engine, the filesystem, the channel) become explicit world records and
event traces, and fallible calls return `Except`.
-/

/-! ## Bytes, hex encoding (the `hex` crate's `hex::encode`, lowercase) -/

/-- One lowercase hex digit, as an ASCII byte (`0`-`9`, `a`-`f`). -/
def hexDigit (n : Nat) : Nat := if n < 10 then 48 + n else 87 + n

/-- `hex::encode`: two lowercase hex digits per byte. -/
def hexEncode : List Nat → List Nat
  | [] => []
  | b :: rest => hexDigit (b / 16) :: hexDigit (b % 16) :: hexEncode rest

/-! ## SHA-256 and HMAC-SHA256 (the `hmac_sha256` crate's `HMAC::mac`) -/

/-- Rotate a 32-bit word right by `n`. -/
def rotr (x n : Nat) : Nat := ((x >>> n) ||| (x <<< (32 - n))) % 4294967296

def sha256K : List Nat :=
  [1116352408, 1899447441, 3049323471, 3921009573, 961987163,
   1508970993, 2453635748, 2870763221, 3624381080, 310598401,
   607225278, 1426881987, 1925078388, 2162078206, 2614888103,
   3248222580, 3835390401, 4022224774, 264347078, 604807628,
   770255983, 1249150122, 1555081692, 1996064986, 2554220882,
   2821834349, 2952996808, 3210313671, 3336571891, 3584528711,
   113926993, 338241895, 666307205, 773529912, 1294757372,
   1396182291, 1695183700, 1986661051, 2177026350, 2456956037,
   2730485921, 2820302411, 3259730800, 3345764771, 3516065817,
   3600352804, 4094571909, 275423344, 430227734, 506948616,
   659060556, 883997877, 958139571, 1322822218, 1537002063,
   1747873779, 1955562222, 2024104815, 2227730452, 2361852424,
   2428436474, 2756734187, 3204031479, 3329325298]

def sha256InitH : List Nat :=
  [1779033703, 3144134277, 1013904242, 2773480762,
   1359893119, 2600822924, 528734635, 1541459225]

def smallSigma0 (x : Nat) : Nat := (rotr x 7) ^^^ (rotr x 18) ^^^ (x >>> 3)
def smallSigma1 (x : Nat) : Nat := (rotr x 17) ^^^ (rotr x 19) ^^^ (x >>> 10)
def bigSigma0 (x : Nat) : Nat := (rotr x 2) ^^^ (rotr x 13) ^^^ (rotr x 22)
def bigSigma1 (x : Nat) : Nat := (rotr x 6) ^^^ (rotr x 11) ^^^ (rotr x 25)
def chWord (x y z : Nat) : Nat := (x &&& y) ^^^ ((x ^^^ 0xffffffff) &&& z)
def majWord (x y z : Nat) : Nat := (x &&& y) ^^^ (x &&& z) ^^^ (y &&& z)

/-- Big-endian 8-byte encoding of the bit length. -/
def lenBytes (n : Nat) : List Nat :=
  [n / 2 ^ 56 % 256, n / 2 ^ 48 % 256, n / 2 ^ 40 % 256, n / 2 ^ 32 % 256,
   n / 2 ^ 24 % 256, n / 2 ^ 16 % 256, n / 2 ^ 8 % 256, n % 256]

/-- SHA-256 padding: a 0x80 byte, zeros to 56 mod 64, then the bit length. -/
def sha256Pad (msg : List Nat) : List Nat :=
  msg ++ [128] ++ List.replicate ((64 + 55 - msg.length % 64) % 64) 0
      ++ lenBytes (msg.length * 8)

/-- Pack bytes into big-endian 32-bit words. -/
def toWords : List Nat → List Nat
  | b0 :: b1 :: b2 :: b3 :: rest =>
      (b0 * 2 ^ 24 + b1 * 2 ^ 16 + b2 * 2 ^ 8 + b3) % 4294967296 :: toWords rest
  | _ => []

/-- Split a word list into 16-word blocks. -/
def chunk16 (ws : List Nat) : List (List Nat) :=
  if h : ws = [] then []
  else ws.take 16 :: chunk16 (ws.drop 16)
  termination_by ws.length
  decreasing_by
    simp only [List.length_drop]
    cases ws with
    | nil => exact absurd rfl h
    | cons a t => simp; omega

/-- One step of the message-schedule extension (list kept reversed). -/
def schedStep (revW : List Nat) : Nat :=
  (smallSigma1 (revW.getD 1 0) + revW.getD 6 0 + smallSigma0 (revW.getD 14 0)
    + revW.getD 15 0) % 4294967296

def extendSched : Nat → List Nat → List Nat
  | 0, revW => revW
  | n + 1, revW => extendSched n (schedStep revW :: revW)

/-- The 64-word message schedule of one block. -/
def schedule (block : List Nat) : List Nat := (extendSched 48 block.reverse).reverse

/-- One SHA-256 round on the state `[a,b,c,d,e,f,g,h]`. -/
def roundStep (st : List Nat) (kw : Nat × Nat) : List Nat :=
  match st with
  | [a, b, c, d, e, f, g, h] =>
      let t1 := (h + bigSigma1 e + chWord e f g + kw.1 + kw.2) % 4294967296
      let t2 := (bigSigma0 a + majWord a b c) % 4294967296
      [(t1 + t2) % 4294967296, a, b, c, (d + t1) % 4294967296, e, f, g]
  | other => other

/-- Compress one 16-word block into the hash state. -/
def compressBlock (h : List Nat) (block : List Nat) : List Nat :=
  let st := ((sha256K.zip (schedule block)).foldl
      (fun s kw => roundStep s (kw.2, kw.1)) h)
  (h.zip st).map (fun p => (p.1 + p.2) % 4294967296)

def sha256Words (msg : List Nat) : List Nat :=
  (chunk16 (toWords (sha256Pad msg))).foldl compressBlock sha256InitH

/-- Big-endian bytes of one 32-bit word. -/
def wordBytes (w : Nat) : List Nat :=
  [w / 2 ^ 24 % 256, w / 2 ^ 16 % 256, w / 2 ^ 8 % 256, w % 256]

/-- SHA-256 digest as 32 bytes. -/
def sha256 (msg : List Nat) : List Nat := (sha256Words msg).flatMap wordBytes

/-- HMAC key normalization: hash long keys, zero-pad to a 64-byte block. -/
def hmacKey (key : List Nat) : List Nat :=
  let k := if 64 < key.length then sha256 key else key
  k ++ List.replicate (64 - k.length) 0

/-- `HMAC::mac(msg, key)` of the `hmac_sha256` crate: standard HMAC-SHA256. -/
def hmacSha256 (key msg : List Nat) : List Nat :=
  let k := hmacKey key
  sha256 ((k.map (fun b => b ^^^ 92)) ++ sha256 ((k.map (fun b => b ^^^ 54)) ++ msg))


/-! ## Header values and UTF-8 bodies -/

/-- `http::HeaderValue::to_str` accepts visible ASCII and horizontal tab. -/
def isVisibleAscii (b : Nat) : Bool := (32 ≤ b && b < 127) || b == 9

/-- `HeaderValue::to_str().ok()`: the raw bytes, if they form visible ASCII. -/
def headerToStr (v : List Nat) : Option (List Nat) :=
  if v.all isVisibleAscii then some v else none

/-- The handler's `get` closure: look a header up, then `to_str().ok()`. -/
def hget (headers : List (String × List Nat)) (key : String) : Option (List Nat) :=
  (headers.lookup key).bind headerToStr

/-- Is a continuation byte (`0x80..0xBF`)? -/
def isCont (b : Nat) : Bool := 128 ≤ b && b < 192

/-- Strict UTF-8 validity, as checked by `Read::read_to_string` (rejects
overlong encodings, surrogates and values above `U+10FFFF`). -/
def utf8Valid : List Nat → Bool
  | [] => true
  | b :: rest =>
    if b < 128 then utf8Valid rest
    else if 194 ≤ b && b ≤ 223 then
      match rest with
      | c1 :: r => isCont c1 && utf8Valid r
      | [] => false
    else if b == 224 then
      match rest with
      | c1 :: c2 :: r => (160 ≤ c1 && c1 < 192) && isCont c2 && utf8Valid r
      | _ => false
    else if (225 ≤ b && b ≤ 236) || b == 238 || b == 239 then
      match rest with
      | c1 :: c2 :: r => isCont c1 && isCont c2 && utf8Valid r
      | _ => false
    else if b == 237 then
      match rest with
      | c1 :: c2 :: r => (128 ≤ c1 && c1 < 160) && isCont c2 && utf8Valid r
      | _ => false
    else if b == 240 then
      match rest with
      | c1 :: c2 :: c3 :: r =>
          (144 ≤ c1 && c1 < 192) && isCont c2 && isCont c3 && utf8Valid r
      | _ => false
    else if 241 ≤ b && b ≤ 243 then
      match rest with
      | c1 :: c2 :: c3 :: r => isCont c1 && isCont c2 && isCont c3 && utf8Valid r
      | _ => false
    else if b == 244 then
      match rest with
      | c1 :: c2 :: c3 :: r =>
          (128 ≤ c1 && c1 < 144) && isCont c2 && isCont c3 && utf8Valid r
      | _ => false
    else false

/-! ## JSON values (the `json` crate, as used by the handler) -/

/-- Parsed JSON values. -/
inductive Json where
  | null
  | jbool (b : Bool)
  | jnum (n : Int)
  | jstr (s : String)
  | jarr (xs : List Json)
  | jobj (fields : List (String × Json))

/-- `value[key]` of the `json` crate: member of an object, `Null` otherwise. -/
def Json.getField : Json → String → Json
  | .jobj fields, key =>
      match fields.lookup key with
      | some v => v
      | none => .null
  | _, _ => .null

/-- `JsonValue::as_str`: `Some` exactly for string values. -/
def Json.asStr : Json → Option String
  | .jstr s => some s
  | _ => none

/-- `Option::zip`. -/
def optZip : Option α → Option β → Option (α × β)
  | some a, some b => some (a, b)
  | _, _ => none

/-! ## The webhook endpoint (`ReqHandler::call` in `req_handler.rs`) -/

inductive Method where
  | POST | GET | PUT | DELETE | HEAD | OPTIONS | PATCH
deriving DecidableEq

/-- An inbound HTTP request: method, raw headers, and the result of
`body::aggregate` (reading the body off the wire can fail). -/
structure HttpRequest where
  method : Method
  headers : List (String × List Nat)
  body : Except Unit (List Nat)

/-- A response as built by `response(status)`: the body is always empty. -/
structure HttpResponse where
  status : Nat
  body : List Nat
deriving DecidableEq

/-- `response(status)` builds a response with `Body::empty()`. -/
def response (status : Nat) : HttpResponse := ⟨status, []⟩

/-- Outcome of one call: an HTTP response, or a panic that produces none. -/
inductive Outcome where
  | resp (r : HttpResponse)
  | panicked
deriving DecidableEq

/-- Observable steps of one handler call, in execution order. -/
inductive HEvent where
  | readBody
  | macComputed
  | parseJson
  | spawn (name url : String)
deriving DecidableEq

def sigHeaderName : String := "X-Hub-Signature-256"
def evtHeaderName : String := "X-GitHub-Event"

/-- The ASCII bytes of the fixed algorithm tag `sha256=` (7 bytes). -/
def sha256Label : List Nat := [115, 104, 97, 50, 53, 54, 61]

/-- `ReqHandler::call`, with the `json::parse` collaborator passed in as
`parse` (`none` models a parse error).  `git_sig[7..]` panics when the
header value is shorter than 7 bytes, which the model makes explicit. -/
def req_handler_call (secret : List Nat) (parse : List Nat → Option Json)
    (req : HttpRequest) : Outcome × List HEvent :=
  match req.method with
  | .POST =>
    match optZip (hget req.headers sigHeaderName) (hget req.headers evtHeaderName) with
    | none => (.resp (response 400), [])
    | some (gitSig, _event) =>
      match req.body with
      | .error _ => (.resp (response 400), [.readBody])
      | .ok bytes =>
        if utf8Valid bytes then
          let sig := hmacSha256 secret bytes
          if 7 ≤ gitSig.length then
            if gitSig.drop 7 ≠ hexEncode sig then
              (.resp (response 401), [.readBody, .macComputed])
            else
              match parse bytes with
              | none => (.resp (response 400), [.readBody, .macComputed, .parseJson])
              | some data =>
                let repo := data.getField "repository"
                match optZip (repo.getField "name").asStr (repo.getField "ssh_url").asStr with
                | none => (.resp (response 400), [.readBody, .macComputed, .parseJson])
                | some (name, url) =>
                    (.resp (response 200),
                     [.readBody, .macComputed, .parseJson, .spawn name url])
          else
            -- `git_sig[7..]` is out of bounds: byte index 7 > length
            (.panicked, [.readBody, .macComputed])
        else (.resp (response 400), [.readBody])
  | _ => (.resp (response 405), [])

/-! ## Deployment descriptors (`config.rs`) -/

inductive RestartPolicyNameEnum where
  | EMPTY | NO | ALWAYS | ON_FAILURE | UNLESS_STOPPED
deriving DecidableEq

/-- `bollard::models::RestartPolicy` (only `name` is ever set here). -/
structure RestartPolicy where
  name : Option RestartPolicyNameEnum := none
  maximumRetryCount : Option Int := none
deriving DecidableEq

/-- `bollard::models::PortBinding`. -/
structure PortBinding where
  hostIp : Option String := none
  hostPort : Option String := none
deriving DecidableEq

/-- The decoded descriptor body (`struct ConfigInner`).  Hash maps are
modelled as association lists in insertion order. -/
structure ConfigInner where
  url : String
  restart : Option RestartPolicy
  env : Option (List String)
  volumes : Option (List String)
  ports : Option (List (String × Option (List PortBinding)))
deriving DecidableEq

/-- `struct Config`: `ConfigInner` plus the name taken from the file stem. -/
structure Config where
  name : String
  url : String
  restart : Option RestartPolicy
  env : Option (List String)
  volumes : Option (List String)
  ports : Option (List (String × Option (List PortBinding)))
deriving DecidableEq

/-- TOML values, as far as the descriptor format needs them. -/
inductive Toml where
  | tstr (s : String)
  | tarr (xs : List Toml)
  | ttable (kvs : List (String × Toml))

/-- `enum ConfigInnerField` (serde `field_identifier`, lowercase names). -/
inductive ConfigInnerField where
  | url | restart | env | volumes | ports
deriving DecidableEq

/-- Decoding a key into `ConfigInnerField`; unknown keys are an error. -/
def decodeFieldKey (s : String) : Except String ConfigInnerField :=
  if s = "url" then .ok .url
  else if s = "restart" then .ok .restart
  else if s = "env" then .ok .env
  else if s = "volumes" then .ok .volumes
  else if s = "ports" then .ok .ports
  else .error "unknown field"

/-- `next_value` for a plain string. -/
def decodeString : Toml → Except String String
  | .tstr s => .ok s
  | _ => .error "expected string"

/-- `next_value` for `HashMap String String`. -/
def decodeStrTable : Toml → Except String (List (String × String))
  | .ttable kvs =>
      kvs.mapM (fun kv =>
        match kv.2 with
        | .tstr s => Except.ok (kv.1, s)
        | _ => Except.error "expected string value")
  | _ => .error "expected table"

/-- `next_value` for a `2`-element string array. -/
def decodeStrPair : Toml → Except String (String × String)
  | .tarr [.tstr a, .tstr b] => .ok (a, b)
  | _ => .error "expected array of two strings"

/-- `next_value` for `HashMap String (array of 2 strings)`. -/
def decodePortTable : Toml → Except String (List (String × (String × String)))
  | .ttable kvs =>
      kvs.mapM (fun kv =>
        match decodeStrPair kv.2 with
        | .ok p => Except.ok (kv.1, p)
        | .error e => Except.error e)
  | _ => .error "expected table"

/-- The match on the restart-policy string (unknown strings give `EMPTY`). -/
def restartOfStr (s : String) : RestartPolicyNameEnum :=
  if s = "no" then .NO
  else if s = "always" then .ALWAYS
  else if s = "on-failure" then .ON_FAILURE
  else if s = "unless-stopped" then .UNLESS_STOPPED
  else .EMPTY

/-- `[k, "=", v].concat()` over the env map. -/
def envEntries (vars : List (String × String)) : List String :=
  vars.map (fun kv => kv.1 ++ "=" ++ kv.2)

/-- `[k, ":", v].concat()` over the volumes map. -/
def volEntries (vars : List (String × String)) : List String :=
  vars.map (fun kv => kv.1 ++ ":" ++ kv.2)

/-- Replace the value at a key of an association list (append if absent). -/
def setKey : List (String × α) → String → α → List (String × α)
  | [], k, v => [(k, v)]
  | (k', v') :: rest, k, v =>
      if k' = k then (k, v) :: rest else (k', v') :: setKey rest k v

/-- `ports.entry(k).or_insert_with(|| Some(Vec::new())).as_mut().and_then(push)`. -/
def insertPort (m : List (String × Option (List PortBinding))) (k : String)
    (b : PortBinding) : List (String × Option (List PortBinding)) :=
  match m.lookup k with
  | some (some v) => setKey m k (some (v ++ [b]))
  | some none => m
  | none => m ++ [(k, some [b])]

/-- The port-binding fold over the decoded `HashMap String (array 2)`. -/
def buildPorts (pairs : List (String × (String × String))) :
    List (String × Option (List PortBinding)) :=
  pairs.foldl (fun acc kv => insertPort acc kv.1 ⟨some kv.2.1, some kv.2.2⟩) []

/-- The five mutable slots of `visit_map`. -/
structure Slots where
  url : Option String := none
  restart : Option RestartPolicy := none
  env : Option (List String) := none
  volumes : Option (List String) := none
  ports : Option (List (String × Option (List PortBinding))) := none

/-- The tail of `visit_map`: `url` is required, the rest are optional. -/
def finishSlots (s : Slots) : Except String ConfigInner :=
  match s.url with
  | none => .error "missing field url"
  | some u => .ok ⟨u, s.restart, s.env, s.volumes, s.ports⟩

/-- The `loop` of `ConfigInnerVisitor::visit_map`, with explicit fuel
(`none` = the loop has not returned within the given number of
iterations).  `map.next_key()` is modelled after toml 0.5's `MapVisitor`:
the pre-parsed key/value pair is consumed from the iterator *before* the
key identifier is decoded, so a failing `next_key` (unknown field name)
leaves the access one pair further along, and the `if let Ok` silently
retries the loop on it. -/
def visit_map_loop : Nat → List (String × Toml) → Slots →
    Option (Except String ConfigInner)
  | 0, _, _ => none
  | n + 1, pairs, slots =>
    match pairs with
    | [] => some (finishSlots slots)            -- next_key gave Ok(None): break
    | (k, v) :: rest =>
      match decodeFieldKey k with
      | .error _ => visit_map_loop n rest slots -- Err swallowed by the if-let
      | .ok f =>
        match f with
        | .url =>
            if slots.url.isSome then some (.error "duplicate field url")
            else match decodeString v with
              | .error e => some (.error e)
              | .ok s => visit_map_loop n rest { slots with url := some s }
        | .restart =>
            if slots.restart.isSome then some (.error "duplicate field restart")
            else match decodeString v with
              | .error e => some (.error e)
              | .ok s =>
                  visit_map_loop n rest
                    { slots with restart := some ⟨some (restartOfStr s), none⟩ }
        | .env =>
            if slots.env.isSome then some (.error "duplicate field env")
            else match decodeStrTable v with
              | .error e => some (.error e)
              | .ok t => visit_map_loop n rest { slots with env := some (envEntries t) }
        | .volumes =>
            if slots.volumes.isSome then some (.error "duplicate field volumes")
            else match decodeStrTable v with
              | .error e => some (.error e)
              | .ok t =>
                  visit_map_loop n rest { slots with volumes := some (volEntries t) }
        | .ports =>
            if slots.ports.isSome then some (.error "duplicate field ports")
            else match decodePortTable v with
              | .error e => some (.error e)
              | .ok t => visit_map_loop n rest { slots with ports := some (buildPorts t) }

/-- `ConfigInner::deserialize` on a pre-parsed table. -/
def visit_map (pairs : List (String × Toml)) : Option (Except String ConfigInner) :=
  visit_map_loop (pairs.length + 1) pairs {}

instance {ε α : Type} [DecidableEq ε] [DecidableEq α] : DecidableEq (Except ε α) :=
  fun a b =>
    match a, b with
    | .error e, .error f =>
        if h : e = f then .isTrue (h ▸ rfl)
        else .isFalse (fun hc => h (Except.error.inj hc))
    | .ok x, .ok y =>
        if h : x = y then .isTrue (h ▸ rfl)
        else .isFalse (fun hc => h (Except.ok.inj hc))
    | .error _, .ok _ => .isFalse (fun hc => Except.noConfusion hc)
    | .ok _, .error _ => .isFalse (fun hc => Except.noConfusion hc)

/-! ## Image build (`build_image` in `utils.rs`) -/

/-- One entry of the engine's build-progress stream (contents irrelevant;
an entry is either an info message or an engine-side error). -/
structure BuildInfo where
  msg : String
deriving DecidableEq

/-- The `while let Some(info) = stream.next().await` loop: every entry is
consumed (and only logged via `trace!`), whether it is `Ok` or `Err`. -/
def drainStream : List (Except Unit BuildInfo) → Nat
  | [] => 0
  | _ :: rest => 1 + drainStream rest

/-- `build_image`: `tar` assembly can fail; the submitted stream is then
drained to the end.  The function's result does not look at the stream
entries: it is `Ok(())` whenever the archive was assembled.  Returns the
result and how many stream entries were consumed. -/
def build_image (tarResult : Except Unit (List Nat))
    (stream : List (Except Unit BuildInfo)) : Except Unit Unit × Nat :=
  match tarResult with
  | .error e => (.error e, 0)
  | .ok _ => (.ok (), drainStream stream)

/-! ## Container lifecycle (`utils.rs`) and the deploy task
(`trigger_update` in `req_handler.rs`) -/

/-- `inspect_image` result: the fields `run_container` reads. -/
structure ImageInspect where
  cmd : Option (List String)
  entrypoint : Option (List String)
  workingDir : Option String
  repoTags : Option (List String)
  id : String
deriving DecidableEq

/-- The `ContainerConfig` assembled by `run_container`. -/
structure ContainerSpec where
  cmd : Option (List String)
  entrypoint : Option (List String)
  workingDir : Option String
  image : Option String
  env : Option (List String)
  binds : Option (List String)
  portBindings : Option (List (String × Option (List PortBinding)))
  restartPolicy : Option RestartPolicy
deriving DecidableEq

/-- Outcomes of every external call a deploy task can make.  Results are
fixed per world; the task is deterministic given a world. -/
structure DeployWorld where
  syncResult : Except Unit Bool                 -- clone_or_fetch_repo
  dockerfileExists : Bool                       -- repo_path.join("Dockerfile").is_file()
  tarResult : Except Unit (List Nat)            -- tar assembly inside build_image
  buildStream : List (Except Unit BuildInfo)    -- the engine's progress stream
  configExists : Bool                           -- config_path.is_file()
  configLoad : Except Unit Config               -- Config::from_file
  containers : Except Unit (List (Option String)) -- find_containers_with_image (ids)
  stopRes : String → Except Unit Unit           -- docker.stop_container
  removeRes : String → Except Unit Unit         -- docker.remove_container
  inspectRes : Except Unit ImageInspect         -- docker.inspect_image
  createRes : Except Unit String                -- docker.create_container (new id)
  startRes : String → Except Unit Unit          -- docker.start_container

/-- Observable steps of a deploy task, in execution order. -/
inductive DEvent where
  | syncRepo (url : String)
  | buildStep (name : String)
  | loadConfig
  | send (c : Config)
  | listContainers (name : String)
  | stopCall (id : String)
  | removeCall (id : String)
  | inspectImage (name : String)
  | create (nameOpt : Option String) (spec : ContainerSpec)
  | start (id : String)
  | taskPanicked
deriving DecidableEq

/-- `stop_container` in `utils.rs`: stop, then (only if that succeeded)
remove.  Returns the emitted engine calls and the overall result. -/
def stop_container (w : DeployWorld) (id : String) :
    List DEvent × Except Unit Unit :=
  match w.stopRes id with
  | .error e => ([.stopCall id], .error e)
  | .ok _ =>
    match w.removeRes id with
    | .error e => ([.stopCall id, .removeCall id], .error e)
    | .ok _ => ([.stopCall id, .removeCall id], .ok ())

/-- The `ContainerConfig` value assembled inside `run_container`: command,
entrypoint and working directory from the inspected image, the image
reference from the last repo tag (or the image id), and env, volume binds,
port bindings and restart policy from the descriptor. -/
def runSpec (image : ImageInspect) (config : Config) : ContainerSpec :=
  { cmd := image.cmd
    entrypoint := image.entrypoint
    workingDir := image.workingDir
    image := some ((image.repoTags.map List.getLast?).join.getD image.id)
    env := config.env
    binds := config.volumes
    portBindings := config.ports
    restartPolicy := config.restart }

/-- `run_container` in `utils.rs`: inspect the image, merge its config with
the descriptor, create a container with *no* fixed name, then start it. -/
def run_container (w : DeployWorld) (config : Config) :
    List DEvent × Except Unit Unit :=
  match w.inspectRes with
  | .error e => ([.inspectImage config.name], .error e)
  | .ok image =>
    let cc : ContainerSpec := runSpec image config
    match w.createRes with
    | .error e => ([.inspectImage config.name, .create none cc], .error e)
    | .ok id =>
      match w.startRes id with
      | .error e =>
          ([.inspectImage config.name, .create none cc, .start id], .error e)
      | .ok _ => ([.inspectImage config.name, .create none cc, .start id], .ok ())

/-- The body of the task spawned by `trigger_update(name, repo_url, tx)`.
A failing sync or build is only logged (`if let Err … error!`) and the
task continues; a failing `Config::from_file` hits `.unwrap()` and the
task panics; a failing container listing is logged and ends the task. -/
def trigger_update (w : DeployWorld) (pkgName name url : String) : List DEvent :=
  [.syncRepo url] ++                       -- error logged, execution continues
  (if w.dockerfileExists then
    [.buildStep name] ++                   -- error logged, execution continues
    (if w.configExists then
      [.loadConfig] ++
      (match w.configLoad with
       | .error _ => [.taskPanicked]       -- .unwrap() on the load result
       | .ok config =>
         if name = pkgName then
           [.send config]                  -- self-update: handoff, nothing else
         else
           [.listContainers name] ++
           (match w.containers with
            | .error _ => []               -- error logged, task ends
            | .ok conts =>
                (conts.flatMap (fun c =>
                  match c with
                  | some id => (stop_container w id).1  -- per-id error logged
                  | none => [])) ++
                (run_container w config).1))
     else [])
   else [])

/-- The `(name, url)` pairs of the tasks a handler call spawned. -/
def spawnedTasks (out : Outcome × List HEvent) : List (String × String) :=
  out.2.filterMap (fun e =>
    match e with
    | .spawn n u => some (n, u)
    | _ => none)

/-- One webhook event end to end: the handler call, then the traces of the
deploy tasks it spawned.  The response (first component) is produced by
`req_handler_call` alone: the spawned tasks are detached. -/
def systemHandle (secret : List Nat) (parse : List Nat → Option Json)
    (w : DeployWorld) (pkgName : String) (req : HttpRequest) :
    (Outcome × List HEvent) × List (List DEvent) :=
  let out := req_handler_call secret parse req
  (out, (spawnedTasks out).map (fun t => trigger_update w pkgName t.1 t.2))

/-! ## The serving loop (`main` in `main.rs`) -/

/-- `mpsc::channel::<Config>(1)`: the handoff channel holds one value. -/
def channelCapacity : Nat := 1

/-- Observable steps of the serving loop around shutdown. -/
inductive MEvent where
  | recv (c : Config)           -- rx.recv() yielded the handoff value
  | recvClosed                  -- rx.recv() yielded None (channel closed)
  | gracefulShutdown            -- the hyper server drained and returned
  | applyGeneration (c : Config) -- run_container(&DOCKER, cfg)
deriving DecidableEq

/-- The tail of `main`: the graceful-shutdown future is exactly
`config = rx.recv().await`, so the server begins draining only once the
channel is consumed; afterwards `run_container` runs for the received
value, if any, and the process exits. -/
def mainShutdown (received : Option Config) : List MEvent :=
  match received with
  | some cfg => [.recv cfg, .gracefulShutdown, .applyGeneration cfg]
  | none => [.recvClosed, .gracefulShutdown]

/-! ## Helper lemmas -/

/-- Every byte of a SHA-256 digest is below 256. -/
theorem sha256_bytes_lt (msg : List Nat) : ∀ b ∈ sha256 msg, b < 256 := by
  intro b hb
  simp only [sha256, List.mem_flatMap] at hb
  obtain ⟨w, _, hw⟩ := hb
  simp only [wordBytes, List.mem_cons] at hw
  rcases hw with h | h | h | h | h
  · subst h; exact Nat.mod_lt _ (by omega)
  · subst h; exact Nat.mod_lt _ (by omega)
  · subst h; exact Nat.mod_lt _ (by omega)
  · subst h; exact Nat.mod_lt _ (by omega)
  · exact absurd h (List.not_mem_nil b)

/-- Every byte of an HMAC-SHA256 digest is below 256. -/
theorem hmacSha256_bytes_lt (key msg : List Nat) :
    ∀ b ∈ hmacSha256 key msg, b < 256 := by
  intro b hb
  exact sha256_bytes_lt _ b hb

theorem hexDigit_visible (n : Nat) (h : n < 16) : isVisibleAscii (hexDigit n) = true := by
  unfold isVisibleAscii hexDigit
  split <;> simp <;> omega

theorem hexEncode_all_visible (m : List Nat) (h : ∀ b ∈ m, b < 256) :
    (hexEncode m).all isVisibleAscii = true := by
  induction m with
  | nil => rfl
  | cons b rest ih =>
    simp only [hexEncode, List.all_cons, Bool.and_eq_true]
    refine ⟨hexDigit_visible _ ?_, hexDigit_visible _ ?_, ih ?_⟩
    · have hb := h b (List.mem_cons_self _ _)
      exact (Nat.div_lt_iff_lt_mul (by omega)).mpr (by omega)
    · exact Nat.mod_lt _ (by omega)
    · intro x hx
      exact h x (List.mem_cons_of_mem _ hx)

theorem sha256Label_visible : sha256Label.all isVisibleAscii = true := by decide

theorem sha256Label_append_visible (m : List Nat) (h : ∀ b ∈ m, b < 256) :
    (sha256Label ++ hexEncode m).all isVisibleAscii = true := by
  rw [List.all_append, sha256Label_visible, hexEncode_all_visible m h]
  rfl

theorem drop7_label (x : List Nat) : (sha256Label ++ x).drop 7 = x := rfl

theorem len7_label (x : List Nat) : 7 ≤ (sha256Label ++ x).length := by
  rw [List.length_append]
  show 7 ≤ 7 + x.length
  omega

/-! ## Claims -/

/-- C1: for every request body and shared secret, the verifier accepts
(does not answer 401, and goes on to parse the body as JSON) when the
signature header equals `sha256=` followed by the lowercase hex encoding
of HMAC-SHA256(secret, body), and answers 401 — without ever parsing the
body as JSON — when the hex string after the 7-byte prefix differs from
that digest. -/
theorem signature_verifier_correct (secret : List Nat)
    (parse : List Nat → Option Json) (req : HttpRequest)
    (bytes sigBytes evtBytes : List Nat)
    (hm : req.method = Method.POST)
    (hs : hget req.headers sigHeaderName = some sigBytes)
    (he : hget req.headers evtHeaderName = some evtBytes)
    (hb : req.body = Except.ok bytes)
    (hu : utf8Valid bytes = true) :
    (sigBytes = sha256Label ++ hexEncode (hmacSha256 secret bytes) →
       (req_handler_call secret parse req).1 ≠ .resp (response 401) ∧
       HEvent.parseJson ∈ (req_handler_call secret parse req).2) ∧
    (7 ≤ sigBytes.length →
       sigBytes.drop 7 ≠ hexEncode (hmacSha256 secret bytes) →
       req_handler_call secret parse req
         = (.resp (response 401), [.readBody, .macComputed]) ∧
       HEvent.parseJson ∉ (req_handler_call secret parse req).2) := by
  obtain ⟨m, headers, body⟩ := req
  simp only at hm hs he hb
  subst hm hb
  simp only [req_handler_call, hs, he, optZip, hu, if_true]
  constructor
  · intro hsig
    subst hsig
    rw [if_pos (len7_label _), drop7_label]
    rw [if_neg (by simp)]
    cases hp : parse bytes with
    | none => simp [response]
    | some data =>
      cases hn : ((data.getField "repository").getField "name").asStr with
      | none => simp [hn, response]
      | some n =>
        cases hw : ((data.getField "repository").getField "ssh_url").asStr with
        | none => simp [hn, hw, response]
        | some u => simp [hn, hw, response]
  · intro hlen hne
    rw [if_pos hlen, if_pos hne]
    simp

/-! ## Fixtures and event predicates (definitions used by later theorems) -/

def isCreateEvt : DEvent → Bool
  | .create _ _ => true
  | _ => false

def isStartEvt (id : String) : DEvent → Bool
  | .start i => i == id
  | _ => false

def isSendEvt : DEvent → Bool
  | .send _ => true
  | _ => false

/-- Engine calls of the container lifecycle manager. -/
def isContainerOp : DEvent → Bool
  | .listContainers _ => true
  | .stopCall _ => true
  | .removeCall _ => true
  | .inspectImage _ => true
  | .create _ _ => true
  | .start _ => true
  | _ => false

def isApplyEvt : MEvent → Bool
  | .applyGeneration _ => true
  | _ => false

def cfgA : Config := ⟨"app", "git@example.com:me/app.git", none, none, none, none⟩

def imgA : ImageInspect := ⟨none, none, none, none, "img1"⟩

/-- A world where every external call succeeds and two containers match. -/
def wOk : DeployWorld :=
  { syncResult := .ok true
    dockerfileExists := true
    tarResult := .ok []
    buildStream := []
    configExists := true
    configLoad := .ok cfgA
    containers := .ok [some "c1", some "c2"]
    stopRes := fun _ => .ok ()
    removeRes := fun _ => .ok ()
    inspectRes := .ok imgA
    createRes := .ok "newc"
    startRes := fun _ => .ok () }

/-- A world where both the repository sync and the image build fail. -/
def wFail : DeployWorld :=
  { syncResult := .error ()
    dockerfileExists := true
    tarResult := .error ()
    buildStream := []
    configExists := true
    configLoad := .ok cfgA
    containers := .ok []
    stopRes := fun _ => .ok ()
    removeRes := fun _ => .ok ()
    inspectRes := .ok imgA
    createRes := .ok "newc"
    startRes := fun _ => .ok () }

def witnessSecret : List Nat := [107, 101, 121]

def witnessBody : List Nat := []

/-- A signature header value that matches `witnessBody` under `witnessSecret`. -/
def validSigValue : List Nat := sha256Label ++ hexEncode (hmacSha256 witnessSecret witnessBody)

def evtValue : List Nat := [112, 117, 115, 104]

def reqValidSig : HttpRequest :=
  { method := .POST
    headers := [(sigHeaderName, validSigValue), (evtHeaderName, evtValue)]
    body := .ok witnessBody }

/-- A POST whose signature header value is 3 bytes long. -/
def shortSigReq : HttpRequest :=
  { method := .POST
    headers := [(sigHeaderName, [97, 98, 99]), (evtHeaderName, evtValue)]
    body := .ok [] }

/-- A POST whose signature header value is 1 byte long. -/
def oneByteSigReq : HttpRequest :=
  { method := .POST
    headers := [(sigHeaderName, [120]), (evtHeaderName, evtValue)]
    body := .ok [] }

/-- A webhook payload carrying `repository.name` and `repository.ssh_url`. -/
def payloadJson : Json :=
  .jobj [("repository", .jobj [("name", .jstr "app"),
                               ("ssh_url", .jstr "git@example.com:me/app.git")])]

/-- The descriptor of the round-trip property, as pre-parsed TOML pairs. -/
def descriptorPairs : List (String × Toml) :=
  [("url", .tstr "git@example.com:me/app.git"),
   ("restart", .tstr "on-failure"),
   ("env", .ttable [("A", .tstr "1")]),
   ("volumes", .ttable [("/h", .tstr "/c")]),
   ("ports", .ttable [("80/tcp", .tarr [.tstr "0.0.0.0", .tstr "8080"])])]

/-- The logical structure that descriptor decodes to. -/
def descriptorExpected : ConfigInner :=
  { url := "git@example.com:me/app.git"
    restart := some { name := some .ON_FAILURE, maximumRetryCount := none }
    env := some ["A=1"]
    volumes := some ["/h:/c"]
    ports := some [("80/tcp", some [{ hostIp := some "0.0.0.0", hostPort := some "8080" }])] }

theorem optZip_eq_some {α β : Type} {a : Option α} {b : Option β} {x : α × β}
    (h : optZip a b = some x) : a = some x.1 ∧ b = some x.2 := by
  cases a <;> cases b <;> simp [optZip] at h
  subst h
  simp

/-- Witness for C1: at a concrete secret and body, a request carrying the
matching `sha256=<hex>` header is accepted (not 401) and the body is
parsed as JSON. -/
theorem signature_verifier_correct_witness :
    (req_handler_call witnessSecret (fun _ => none) reqValidSig).1
        ≠ .resp (response 401) ∧
    HEvent.parseJson ∈ (req_handler_call witnessSecret (fun _ => none) reqValidSig).2 := by
  have hvis : validSigValue.all isVisibleAscii = true :=
    sha256Label_append_visible _ (hmacSha256_bytes_lt witnessSecret witnessBody)
  have hsv : headerToStr validSigValue = some validSigValue := by
    unfold headerToStr
    rw [hvis]
    rfl
  have hs : hget reqValidSig.headers sigHeaderName = some validSigValue := by
    simp [reqValidSig, hget, List.lookup, hsv]
  have he : hget reqValidSig.headers evtHeaderName = some evtValue := by decide
  exact (signature_verifier_correct witnessSecret (fun _ => none) reqValidSig
      witnessBody validSigValue evtValue rfl hs he rfl rfl).1 rfl

/-- C9 counterexample: a POST with both headers present, an empty (valid
UTF-8) body and the 3-byte signature header value `abc` makes the handler
panic on the out-of-bounds slice `git_sig[7..]`; no 401 (or any response)
is produced. -/
theorem short_signature_panics :
    req_handler_call [] (fun _ => none) shortSigReq
        = (.panicked, [.readBody, .macComputed]) ∧
    Outcome.panicked ≠ .resp (response 401) := by
  constructor
  · rfl
  · intro h
    exact Outcome.noConfusion h

/-- C9 amended: the signature check is *not* total: for every POST request
with both headers present and a readable, valid-UTF-8 body whose signature
header value is shorter than 7 bytes, the slice at byte offset 7 is out of
bounds and the handler panics instead of returning a response (401 arises
only for values of length at least 7 whose remainder differs from the
digest). -/
theorem short_signature_amended (secret : List Nat)
    (parse : List Nat → Option Json) (req : HttpRequest)
    (bytes sigBytes evtBytes : List Nat)
    (hm : req.method = Method.POST)
    (hs : hget req.headers sigHeaderName = some sigBytes)
    (he : hget req.headers evtHeaderName = some evtBytes)
    (hb : req.body = Except.ok bytes)
    (hu : utf8Valid bytes = true)
    (hlen : sigBytes.length < 7) :
    req_handler_call secret parse req = (.panicked, [.readBody, .macComputed]) := by
  obtain ⟨m, headers, body⟩ := req
  simp only at hm hs he hb
  subst hm hb
  simp only [req_handler_call, hs, he, optZip, hu, if_true]
  rw [if_neg (by omega)]

/-- Witness for the amended C9 at a concrete short-header request. -/
theorem short_signature_amended_witness :
    req_handler_call [] (fun _ => none) shortSigReq
        = (.panicked, [.readBody, .macComputed]) :=
  short_signature_amended [] (fun _ => none) shortSigReq
    [] [97, 98, 99] evtValue rfl (by decide) (by decide) rfl rfl (by decide)

/-- C4 counterexample: the endpoint does *not* return a status code for
every request: with the 1-byte signature header value `x` (a signature
mismatch, which the claim maps to 401) the handler panics and produces no
response at all. -/
theorem status_table_counterexample :
    (req_handler_call [] (fun _ => none) oneByteSigReq).1 = .panicked ∧
    Outcome.panicked ≠ .resp (response 401) ∧
    Outcome.panicked ≠ .resp (response 200) :=
  ⟨rfl, fun h => Outcome.noConfusion h, fun h => Outcome.noConfusion h⟩

/-- C4 amended: the status-code table holds as specified in every case
except one: when the method is POST, both headers are present, the body is
readable valid UTF-8, and the signature header value is *shorter than 7
bytes*, the handler panics instead of answering 401.  In detail: a
non-POST method gives 405 with an empty body and no further processing; a
missing signature or event header gives 400; an unreadable body gives
400; a non-UTF-8 body gives 400; a signature value of length ≥ 7 whose
remainder after the 7-byte prefix differs from the digest gives 401; once
the signature matches, an unparsable JSON body gives 400; a payload
without string `repository.name`/`repository.ssh_url` gives 400; and
otherwise the handler returns 200 and spawns the deploy task. -/
theorem status_codes_amended (secret : List Nat)
    (parse : List Nat → Option Json) (req : HttpRequest) :
    (req.method ≠ .POST →
      req_handler_call secret parse req = (.resp (response 405), [])) ∧
    (req.method = .POST →
      optZip (hget req.headers sigHeaderName) (hget req.headers evtHeaderName) = none →
      req_handler_call secret parse req = (.resp (response 400), [])) ∧
    (∀ sigBytes evtBytes, req.method = .POST →
      hget req.headers sigHeaderName = some sigBytes →
      hget req.headers evtHeaderName = some evtBytes →
      (req.body = .error () →
        req_handler_call secret parse req = (.resp (response 400), [.readBody])) ∧
      (∀ bytes, req.body = .ok bytes →
        (utf8Valid bytes = false →
          req_handler_call secret parse req = (.resp (response 400), [.readBody])) ∧
        (utf8Valid bytes = true →
          (sigBytes.length < 7 →
            req_handler_call secret parse req
              = (.panicked, [.readBody, .macComputed])) ∧
          (7 ≤ sigBytes.length →
            sigBytes.drop 7 ≠ hexEncode (hmacSha256 secret bytes) →
            req_handler_call secret parse req
              = (.resp (response 401), [.readBody, .macComputed])) ∧
          (7 ≤ sigBytes.length →
            sigBytes.drop 7 = hexEncode (hmacSha256 secret bytes) →
            (parse bytes = none →
              req_handler_call secret parse req
                = (.resp (response 400), [.readBody, .macComputed, .parseJson])) ∧
            (∀ data, parse bytes = some data →
              (optZip ((data.getField "repository").getField "name").asStr
                  ((data.getField "repository").getField "ssh_url").asStr = none →
                req_handler_call secret parse req
                  = (.resp (response 400), [.readBody, .macComputed, .parseJson])) ∧
              (∀ n u, optZip ((data.getField "repository").getField "name").asStr
                  ((data.getField "repository").getField "ssh_url").asStr = some (n, u) →
                req_handler_call secret parse req
                  = (.resp (response 200),
                     [.readBody, .macComputed, .parseJson, .spawn n u]))))))) := by
  obtain ⟨m, headers, body⟩ := req
  refine ⟨?_, ?_, ?_⟩
  · intro hm
    cases m <;> first
      | exact absurd rfl hm
      | rfl
  · intro hm hz
    simp only at hm
    subst hm
    simp only [req_handler_call, hz]
  · intro sigBytes evtBytes hm hs he
    simp only at hm hs he
    subst hm
    constructor
    · intro hb
      simp only at hb
      subst hb
      simp only [req_handler_call, hs, he, optZip]
    · intro bytes hb
      simp only at hb
      subst hb
      constructor
      · intro hu
        simp only [req_handler_call, hs, he, optZip, hu, Bool.false_eq_true, if_false]
      · intro hu
        refine ⟨?_, ?_, ?_⟩
        · intro hlen
          simp only [req_handler_call, hs, he, optZip, hu, if_true]
          rw [if_neg (by omega)]
        · intro hlen hne
          simp only [req_handler_call, hs, he, optZip, hu, if_true]
          rw [if_pos hlen, if_pos hne]
        · intro hlen heq
          constructor
          · intro hp
            simp only [req_handler_call, hs, he, optZip, hu, if_true]
            rw [if_pos hlen, if_neg (by simp [heq]), hp]
          · intro data hp
            constructor
            · intro hz
              simp only [req_handler_call, hs, he, optZip, hu, if_true]
              rw [if_pos hlen, if_neg (by simp [heq]), hp]
              cases ha : ((data.getField "repository").getField "name").asStr with
              | none => simp [ha]
              | some n =>
                cases hw : ((data.getField "repository").getField "ssh_url").asStr with
                | none => simp [ha, hw]
                | some u => rw [ha, hw] at hz; simp [optZip] at hz
            · intro n u hz
              obtain ⟨ha, hw⟩ := optZip_eq_some hz
              simp only [req_handler_call, hs, he, optZip, hu, if_true]
              rw [if_pos hlen, if_neg (by simp [heq]), hp]
              simp [ha, hw]

/-- Witness for the amended C4: a GET request is answered 405 with an
empty body and no processing, and a POST without headers is answered 400,
by the amended theorem applied at concrete requests. -/
theorem status_codes_amended_witness :
    req_handler_call [] (fun _ => none) ⟨Method.GET, [], .error ()⟩
        = (.resp (response 405), []) ∧
    req_handler_call [] (fun _ => none) ⟨Method.POST, [], .error ()⟩
        = (.resp (response 400), []) :=
  ⟨(status_codes_amended [] (fun _ => none) ⟨Method.GET, [], .error ()⟩).1 (by decide),
   (status_codes_amended [] (fun _ => none) ⟨Method.POST, [], .error ()⟩).2.1 rfl rfl⟩

/-- C3: for every authenticated, well-formed webhook event the handler
returns 200 and spawns exactly one detached deploy task for
`(name, url)`; the response component of the composed system is
`req_handler_call` alone, so it is identical for every deploy world: it
does not wait on, and cannot depend on, the outcome of the sync, build,
descriptor-load or reconcile steps. -/
theorem handler_returns_200_immediately (secret : List Nat)
    (parse : List Nat → Option Json) (req : HttpRequest)
    (bytes sigBytes evtBytes : List Nat) (data : Json) (n u : String)
    (hm : req.method = Method.POST)
    (hs : hget req.headers sigHeaderName = some sigBytes)
    (he : hget req.headers evtHeaderName = some evtBytes)
    (hb : req.body = Except.ok bytes)
    (hu : utf8Valid bytes = true)
    (hsig : sigBytes = sha256Label ++ hexEncode (hmacSha256 secret bytes))
    (hp : parse bytes = some data)
    (hx : optZip ((data.getField "repository").getField "name").asStr
        ((data.getField "repository").getField "ssh_url").asStr = some (n, u)) :
    (req_handler_call secret parse req).1 = .resp (response 200) ∧
    spawnedTasks (req_handler_call secret parse req) = [(n, u)] ∧
    (∀ w pkg, (systemHandle secret parse w pkg req).1
        = req_handler_call secret parse req) ∧
    (∀ w₁ w₂ pkg₁ pkg₂, (systemHandle secret parse w₁ pkg₁ req).1
        = (systemHandle secret parse w₂ pkg₂ req).1) := by
  obtain ⟨ha, hw⟩ := optZip_eq_some hx
  obtain ⟨m, headers, body⟩ := req
  simp only at hm hs he hb
  subst hm hb hsig
  have h200 : req_handler_call secret parse ⟨Method.POST, headers, Except.ok bytes⟩
      = (.resp (response 200), [.readBody, .macComputed, .parseJson, .spawn n u]) := by
    simp only [req_handler_call, hs, he, optZip, hu, if_true]
    rw [if_pos (len7_label _), drop7_label]
    rw [if_neg (by simp), hp]
    simp [ha, hw]
  refine ⟨by rw [h200], by rw [h200]; rfl, fun w pkg => rfl, fun w₁ w₂ p₁ p₂ => rfl⟩

/-- Witness for C3 at a concrete valid event: 200 is returned and one
task is spawned for the payload's name and ssh url. -/
theorem handler_returns_200_immediately_witness :
    (req_handler_call witnessSecret (fun _ => some payloadJson) reqValidSig).1
        = .resp (response 200) ∧
    spawnedTasks (req_handler_call witnessSecret (fun _ => some payloadJson) reqValidSig)
        = [("app", "git@example.com:me/app.git")] := by
  have hvis : validSigValue.all isVisibleAscii = true :=
    sha256Label_append_visible _ (hmacSha256_bytes_lt witnessSecret witnessBody)
  have hsv : headerToStr validSigValue = some validSigValue := by
    unfold headerToStr
    rw [hvis]
    rfl
  have hs : hget reqValidSig.headers sigHeaderName = some validSigValue := by
    simp [reqValidSig, hget, List.lookup, hsv]
  have h := handler_returns_200_immediately witnessSecret (fun _ => some payloadJson)
      reqValidSig witnessBody validSigValue evtValue payloadJson
      "app" "git@example.com:me/app.git" rfl hs (by decide) rfl rfl rfl rfl rfl
  exact ⟨h.1, h.2.1⟩

theorem drainStream_eq_length (stream : List (Except Unit BuildInfo)) :
    drainStream stream = stream.length := by
  induction stream with
  | nil => rfl
  | cons a rest ih =>
      simp only [drainStream, ih, List.length_cons]
      omega

/-- C6 counterexample: an error entry in the engine's progress stream does
not make `build_image` fail: the entry is drained and the result is still
`Ok` (the claim requires a failing result). -/
theorem build_stream_error_ignored :
    build_image (.ok []) [.error ()] = (.ok (), 1) ∧
    (Except.ok () : Except Unit Unit) ≠ .error () :=
  ⟨rfl, fun h => Except.noConfusion h⟩

/-- C6 amended: `build_image` drains the progress stream to completion
(every entry is consumed), but the entries — errors included — are only
logged: the result is `Ok` whenever the source archive was assembled, and
only a tar-assembly failure yields a failing result. -/
theorem build_image_drains_stream (tar : List Nat)
    (stream : List (Except Unit BuildInfo)) :
    build_image (.ok tar) stream = (.ok (), stream.length) ∧
    build_image (.error ()) stream = (.error (), 0) := by
  constructor
  · simp [build_image, drainStream_eq_length]
  · rfl

/-- C5 counterexample: in `wFail` both the repository sync and the image
build fail, yet the deploy task still runs the build step, still loads
the descriptor, and still creates a container — the claim requires all of
those to be skipped. -/
theorem failing_steps_do_not_abort :
    wFail.syncResult = .error () ∧ wFail.tarResult = .error () ∧
    DEvent.buildStep "app" ∈ trigger_update wFail "hermes" "app" "u" ∧
    DEvent.loadConfig ∈ trigger_update wFail "hermes" "app" "u" ∧
    DEvent.create none ⟨none, none, none, some "img1", none, none, none, none⟩
        ∈ trigger_update wFail "hermes" "app" "u" := by
  refine ⟨rfl, rfl, ?_, ?_, ?_⟩ <;> decide

/-- C5 amended: a failing sync or build step is only logged (`error!`) and
does not abort the deploy task: even when both fail, the build step still
runs whenever a Dockerfile is present, and the descriptor is still loaded
whenever the descriptor file exists (container operations then follow as
usual). -/
theorem sync_build_failures_logged_only (w : DeployWorld) (pkg name url : String)
    (hsync : w.syncResult = .error ())
    (hbuild : w.tarResult = .error ())
    (hd : w.dockerfileExists = true)
    (hc : w.configExists = true) :
    DEvent.buildStep name ∈ trigger_update w pkg name url ∧
    DEvent.loadConfig ∈ trigger_update w pkg name url := by
  refine ⟨?_, ?_⟩ <;> simp [trigger_update, hd, hc]

/-- Witness for the amended C5 at the concrete failing world. -/
theorem sync_build_failures_logged_only_witness :
    DEvent.buildStep "app" ∈ trigger_update wFail "hermes2" "app" "u2" ∧
    DEvent.loadConfig ∈ trigger_update wFail "hermes2" "app" "u2" :=
  sync_build_failures_logged_only wFail "hermes2" "app" "u2" rfl rfl rfl rfl

theorem stop_container_trace (w : DeployWorld) (id : String) :
    (stop_container w id).1 = [DEvent.stopCall id] ∨
    (stop_container w id).1 = [DEvent.stopCall id, DEvent.removeCall id] := by
  unfold stop_container
  cases w.stopRes id with
  | error e => exact Or.inl rfl
  | ok _ =>
    cases w.removeRes id with
    | error e => exact Or.inr rfl
    | ok _ => exact Or.inr rfl

theorem stopCall_mem_stop_container (w : DeployWorld) (id : String) :
    DEvent.stopCall id ∈ (stop_container w id).1 := by
  rcases stop_container_trace w id with h | h <;> simp [h]

theorem stop_container_ok_trace (w : DeployWorld) (id : String)
    (h1 : w.stopRes id = .ok ()) (h2 : w.removeRes id = .ok ()) :
    (stop_container w id).1 = [DEvent.stopCall id, DEvent.removeCall id] := by
  simp [stop_container, h1, h2]

theorem stop_container_trace_events (w : DeployWorld) (id : String) (e : DEvent)
    (he : e ∈ (stop_container w id).1) :
    e = DEvent.stopCall id ∨ e = DEvent.removeCall id := by
  rcases stop_container_trace w id with h | h <;> rw [h] at he <;> simp at he <;> tauto

theorem run_container_trace (w : DeployWorld) (cfg : Config) (img : ImageInspect)
    (newId : String) (hi : w.inspectRes = .ok img) (hcr : w.createRes = .ok newId) :
    (run_container w cfg).1 =
      [DEvent.inspectImage cfg.name, DEvent.create none (runSpec img cfg),
       DEvent.start newId] := by
  cases h : w.startRes newId <;> simp [run_container, hi, hcr, h]

theorem create_in_run_container {w : DeployWorld} {cfg : Config}
    {nameOpt : Option String} {spec : ContainerSpec}
    (h : DEvent.create nameOpt spec ∈ (run_container w cfg).1) : nameOpt = none := by
  unfold run_container at h
  cases hi : w.inspectRes with
  | error e => rw [hi] at h; simp at h
  | ok img =>
    rw [hi] at h
    dsimp only at h
    cases hcr : w.createRes with
    | error e =>
      rw [hcr] at h
      dsimp only at h
      simp at h
      exact h.1
    | ok id =>
      rw [hcr] at h
      dsimp only at h
      cases hst : w.startRes id with
      | error e =>
        rw [hst] at h
        simp at h
        exact h.1
      | ok a =>
        rw [hst] at h
        simp at h
        exact h.1

theorem flatMap_decomp {α β : Type} (g : α → List β) (l : List α) (a : α)
    (ha : a ∈ l) : ∃ pre post, l.flatMap g = pre ++ (g a ++ post) := by
  induction l with
  | nil => cases ha
  | cons x xs ih =>
    rcases List.mem_cons.mp ha with h | h
    · subst h
      exact ⟨[], xs.flatMap g, by simp⟩
    · obtain ⟨pre, post, hp⟩ := ih h
      exact ⟨g x ++ pre, post, by simp [hp]⟩

theorem countP_flatMap_zero {α β : Type} (p : β → Bool) (g : α → List β)
    (l : List α) (h : ∀ a ∈ l, (g a).countP p = 0) :
    (l.flatMap g).countP p = 0 := by
  induction l with
  | nil => rfl
  | cons x xs ih =>
    simp only [List.flatMap_cons, List.countP_append]
    rw [h x (List.mem_cons_self _ _), ih (fun a ha => h a (List.mem_cons_of_mem _ ha))]

theorem trigger_update_other_trace (w : DeployWorld) (pkg name url : String)
    (cfg : Config) (ids : List (Option String))
    (hd : w.dockerfileExists = true) (hc : w.configExists = true)
    (hl : w.configLoad = .ok cfg) (hn : name ≠ pkg)
    (hcont : w.containers = .ok ids) :
    trigger_update w pkg name url =
      [DEvent.syncRepo url, DEvent.buildStep name, DEvent.loadConfig,
       DEvent.listContainers name] ++
      ((ids.flatMap (fun c => match c with
         | some id => (stop_container w id).1
         | none => [])) ++
      (run_container w cfg).1) := by
  simp [trigger_update, hd, hc, hl, hn, hcont]

/-- C7: when the engine lists N matching containers (all with ids), every
one of them receives a stop call whatever the per-container results are
(failures do not abort the iteration); when stop and remove succeed, each
container is stopped then immediately removed; any created container is
created with no fixed name; and (engine inspect/create succeeding)
exactly one container is created and exactly one started. -/
theorem reconcile_behaviour (w : DeployWorld) (pkg name url : String)
    (ids : List String) (cfg : Config)
    (hd : w.dockerfileExists = true)
    (hc : w.configExists = true)
    (hl : w.configLoad = .ok cfg)
    (hn : name ≠ pkg)
    (hcont : w.containers = .ok (ids.map some)) :
    (∀ id ∈ ids, DEvent.stopCall id ∈ trigger_update w pkg name url) ∧
    ((∀ id ∈ ids, w.stopRes id = .ok () ∧ w.removeRes id = .ok ()) →
      ∀ id ∈ ids, ∃ pre post, trigger_update w pkg name url
        = pre ++ ([DEvent.stopCall id, DEvent.removeCall id] ++ post)) ∧
    (∀ nameOpt spec, DEvent.create nameOpt spec ∈ trigger_update w pkg name url →
      nameOpt = none) ∧
    (∀ img newId, w.inspectRes = .ok img → w.createRes = .ok newId →
      (trigger_update w pkg name url).countP isCreateEvt = 1 ∧
      (trigger_update w pkg name url).countP (isStartEvt newId) = 1) := by
  have htr := trigger_update_other_trace w pkg name url cfg (ids.map some) hd hc hl hn hcont
  refine ⟨?_, ?_, ?_, ?_⟩
  · intro id hid
    rw [htr]
    refine List.mem_append.mpr (Or.inr (List.mem_append.mpr (Or.inl ?_)))
    refine List.mem_flatMap.mpr ⟨some id, List.mem_map_of_mem _ hid, ?_⟩
    exact stopCall_mem_stop_container w id
  · intro hok id hid
    obtain ⟨pre, post, hp⟩ := flatMap_decomp
      (fun c => match c with | some i => (stop_container w i).1 | none => [])
      (ids.map some) (some id) (List.mem_map_of_mem _ hid)
    have hs2 : (stop_container w id).1 = [DEvent.stopCall id, DEvent.removeCall id] :=
      stop_container_ok_trace w id (hok id hid).1 (hok id hid).2
    refine ⟨[DEvent.syncRepo url, DEvent.buildStep name, DEvent.loadConfig,
       DEvent.listContainers name] ++ pre, post ++ (run_container w cfg).1, ?_⟩
    rw [htr, hp]
    dsimp only
    rw [hs2]
    simp [List.append_assoc]
  · intro nameOpt spec hmem
    rw [htr] at hmem
    rcases List.mem_append.mp hmem with h1 | h23
    · simp at h1
    · rcases List.mem_append.mp h23 with h2 | h3
      · obtain ⟨c, hcm, hce⟩ := List.mem_flatMap.mp h2
        cases c with
        | some id =>
          rcases stop_container_trace_events w id _ hce with h | h
          · exact DEvent.noConfusion h
          · exact DEvent.noConfusion h
        | none => simp at hce
      · exact create_in_run_container h3
  · intro img newId hi hcr
    have hrt := run_container_trace w cfg img newId hi hcr
    have hzc : ((ids.map some).flatMap fun c => match c with
        | some i => (stop_container w i).1 | none => []).countP isCreateEvt = 0 := by
      apply countP_flatMap_zero
      intro a ha
      cases a with
      | some i =>
        rcases stop_container_trace w i with h | h <;>
          simp [h, isCreateEvt, List.countP_cons]
      | none => rfl
    have hzs : ((ids.map some).flatMap fun c => match c with
        | some i => (stop_container w i).1 | none => []).countP (isStartEvt newId) = 0 := by
      apply countP_flatMap_zero
      intro a ha
      cases a with
      | some i =>
        rcases stop_container_trace w i with h | h <;>
          simp [h, isStartEvt, List.countP_cons]
      | none => rfl
    constructor
    · rw [htr]
      simp only [List.countP_append, hzc]
      rw [hrt]
      simp [isCreateEvt, List.countP_cons]
    · rw [htr]
      simp only [List.countP_append, hzs]
      rw [hrt]
      simp [isStartEvt, List.countP_cons]

/-- Witness for C7 at `wOk`, which lists two matching containers: both get
stop calls and exactly one container is created and one started. -/
theorem reconcile_behaviour_witness :
    DEvent.stopCall "c1" ∈ trigger_update wOk "hermes" "app" "u" ∧
    DEvent.stopCall "c2" ∈ trigger_update wOk "hermes" "app" "u" ∧
    (trigger_update wOk "hermes" "app" "u").countP isCreateEvt = 1 ∧
    (trigger_update wOk "hermes" "app" "u").countP (isStartEvt "newc") = 1 := by
  have h := reconcile_behaviour wOk "hermes" "app" "u" ["c1", "c2"] cfgA rfl rfl rfl
      (by decide) rfl
  exact ⟨h.1 "c1" (by decide), h.1 "c2" (by decide),
    (h.2.2.2 imgA "newc" rfl rfl).1, (h.2.2.2 imgA "newc" rfl rfl).2⟩

/-- C2: the handoff channel has capacity one; a self-targeted deploy task
(name equal to the package name) performs no container-lifecycle call in
any world, and — when the descriptor loads — sends the loaded descriptor
through the channel exactly once as its final action; the serving loop
consumes the handoff value, only then drains gracefully, and applies the
new generation exactly once before the process exits. -/
theorem self_update_handoff (w : DeployWorld) (pkg url : String) (cfg : Config)
    (hd : w.dockerfileExists = true)
    (hc : w.configExists = true)
    (hl : w.configLoad = .ok cfg) :
    channelCapacity = 1 ∧
    trigger_update w pkg pkg url
      = [.syncRepo url, .buildStep pkg, .loadConfig, .send cfg] ∧
    (trigger_update w pkg pkg url).countP isSendEvt = 1 ∧
    (∀ (w' : DeployWorld) (url' : String), ∀ e ∈ trigger_update w' pkg pkg url',
        isContainerOp e = false) ∧
    mainShutdown (some cfg)
      = [.recv cfg, .gracefulShutdown, .applyGeneration cfg] ∧
    (mainShutdown (some cfg)).countP isApplyEvt = 1 := by
  have htrace : trigger_update w pkg pkg url
      = [.syncRepo url, .buildStep pkg, .loadConfig, .send cfg] := by
    simp [trigger_update, hd, hc, hl]
  refine ⟨rfl, htrace, ?_, ?_, rfl, rfl⟩
  · rw [htrace]
    simp [isSendEvt, List.countP_cons]
  · intro w' url' e he
    cases hdf : w'.dockerfileExists with
    | false =>
      simp [trigger_update, hdf] at he
      subst he
      rfl
    | true =>
      cases hcf : w'.configExists with
      | false =>
        simp [trigger_update, hdf, hcf] at he
        rcases he with h | h <;> subst h <;> rfl
      | true =>
        cases hcl : w'.configLoad with
        | error e2 =>
          simp [trigger_update, hdf, hcf, hcl] at he
          rcases he with h | h | h | h <;> subst h <;> rfl
        | ok c =>
          simp [trigger_update, hdf, hcf, hcl] at he
          rcases he with h | h | h | h <;> subst h <;> rfl

/-- Witness for C2 at `wOk` with the deploy target equal to the package
name: the task trace ends in the single send, and the loop applies the
received generation once. -/
theorem self_update_handoff_witness :
    trigger_update wOk "app" "app" "u"
      = [.syncRepo "u", .buildStep "app", .loadConfig, .send cfgA] ∧
    (mainShutdown (some cfgA)).countP isApplyEvt = 1 := by
  have h := self_update_handoff wOk "app" "u" cfgA rfl rfl rfl
  exact ⟨h.2.1, h.2.2.2.2.2⟩

set_option maxRecDepth 100000 in
/-- C8: the example descriptor (url, restart=on-failure, one env entry,
one volume bind, one port binding) decodes to the same logical structure
for every permutation of its five fields. -/
theorem descriptor_order_independent :
    ∀ l ∈ descriptorPairs.permutations', visit_map l = some (.ok descriptorExpected) := by
  decide

/-- Witness for C8 at the identity permutation. -/
theorem descriptor_order_independent_witness :
    visit_map descriptorPairs = some (.ok descriptorExpected) :=
  descriptor_order_independent descriptorPairs
    (List.mem_permutations'.mpr (List.Perm.refl _))

/-- C10: the key-reading loop of `visit_map` returns (with a decode result
or an error, never hanging) within |pairs|+1 iterations for every
pre-parsed TOML table and any slot state — including tables with a field
name other than url/restart/env/volumes/ports, whose failing `next_key`
is swallowed by the `if let Ok` while the map access has already advanced
past the pair. -/
theorem visit_map_loop_terminates (pairs : List (String × Toml)) :
    (∀ (slots : Slots) (fuel : Nat), pairs.length < fuel →
      visit_map_loop fuel pairs slots ≠ none) ∧
    visit_map pairs ≠ none := by
  have main : ∀ (ps : List (String × Toml)) (slots : Slots) (fuel : Nat),
      ps.length < fuel → visit_map_loop fuel ps slots ≠ none := by
    intro ps
    induction ps with
    | nil =>
      intro slots fuel hf
      cases fuel with
      | zero => omega
      | succ n => simp [visit_map_loop]
    | cons p rest ih =>
      intro slots fuel hf
      cases fuel with
      | zero => omega
      | succ n =>
        obtain ⟨k, v⟩ := p
        have hlen : rest.length < n := by
          simp only [List.length_cons] at hf
          omega
        simp only [visit_map_loop]
        repeat' split
        all_goals first
          | exact ih _ n hlen
          | simp
  exact ⟨main pairs, main pairs {} (pairs.length + 1) (by omega)⟩

/-- Witness for C10: the loop returns on a table whose first field name is
unknown. -/
theorem visit_map_loop_terminates_witness :
    visit_map_loop 3 [("bogus", Toml.tstr "x"), ("url", Toml.tstr "u")] {} ≠ none :=
  (visit_map_loop_terminates [("bogus", Toml.tstr "x"), ("url", Toml.tstr "u")]).1
    {} 3 (by decide)
